import Mathlib

/-!
Verification of the FinReg Navigator ingestion-and-retrieval core.

The Python sources are shallowly embedded: page text and lines are `List Char`
(`Str`), per-document analysis and chunking are pure functions, the fallible
collaborators (LLM classification, vector store, web search) are explicit
parameters, and the orchestrator stages are state-passing functions on a
`QState` record mirroring the LangGraph `GraphState` dictionary.
-/

namespace FinReg

/-- Characters treated as whitespace by Python's `str.strip()` / `str.split()`
(ASCII subset: space, tab, newline, carriage return, vertical tab, form feed). -/
def wsChar (c : Char) : Bool :=
  c == ' ' || c == '\t' || c == '\n' || c == '\r' || c == Char.ofNat 11 || c == Char.ofNat 12

/-- A page's text / a line, as a character list. -/
abbrev Str := List Char

/-- Python `str.strip()`: drop whitespace from both ends. -/
def trim (l : Str) : Str :=
  ((l.dropWhile wsChar).reverse.dropWhile wsChar).reverse

/-- Python `text.split('\n')` (note: `"".split('\n') == [""]`). -/
def splitLines : Str → List Str
  | [] => [[]]
  | c :: rest =>
    let r := splitLines rest
    if c == '\n' then [] :: r
    else
      match r with
      | [] => [[c]]
      | h :: t => (c :: h) :: t

/-- Python `[line.strip() for line in text.split('\n') if line.strip()]`
(text_cleaner.py line 79). -/
def pageLines (text : Str) : List Str :=
  ((splitLines text).map trim).filter (fun l => !l.isEmpty)

/-- Does `hay` start with `needle`? -/
def startsWithL : Str → Str → Bool
  | [], _ => true
  | _ :: _, [] => false
  | a :: as, b :: bs => a == b && startsWithL as bs

/-- Python `needle in hay` substring test. -/
def containsSub : Str → Str → Bool
  | n, [] => startsWithL n []
  | n, c :: rest => startsWithL n (c :: rest) || containsSub n rest

/-- Python `s.lower()` (ASCII model). -/
def lowerStr (l : Str) : Str := l.map Char.toLower

/-- Python regex word character `\w` (ASCII model: letter, digit or underscore). -/
def isWordChar (c : Char) : Bool := c.isAlpha || c.isDigit || c == '_'

/-- Is the left boundary of a word match acceptable (`\b`): start of string or a
non-word character before the match. -/
def prevOk : Option Char → Bool
  | none => true
  | some p => !isWordChar p

/-- Is the right boundary of a word match acceptable (`\b`): end of string or a
non-word character after the match. -/
def nextOk : Str → Bool
  | [] => true
  | d :: _ => !isWordChar d

/-- Search for the word `w` in `hay` with `\b` boundaries on both sides;
`prev` is the character just before the current position. -/
def wordSearch (w : Str) : Option Char → Str → Bool
  | _, [] => false
  | prev, c :: rest =>
    (prevOk prev && startsWithL w (c :: rest) && nextOk (List.drop w.length (c :: rest)))
      || wordSearch w (some c) rest

/-- The month names of the protection regex in `TextCleaner._should_keep_line`
(matched case-insensitively, so recorded lowercased). -/
def monthsLower : List Str :=
  ["january", "february", "march", "april", "may", "june", "july", "august",
   "september", "october", "november", "december"].map String.toList

/-- The quantity words of `TextCleaner._should_keep_line`. -/
def quantityWords : List Str :=
  ["percent", "million", "billion", "trillion", "total", "average"].map String.toList

/-- Semantics of `re.search(r'\b(January|...|December)\b', line, re.IGNORECASE)`. -/
def containsMonth (l : Str) : Bool :=
  monthsLower.any (fun m => wordSearch m none (lowerStr l))

/-- Semantics of `any(word in line.lower() for word in [...])`. -/
def quantityWordIn (l : Str) : Bool :=
  quantityWords.any (fun w => containsSub w (lowerStr l))

/-- Semantics of `re.search(r'\d+[,.]?\d*', line)`: everything after the first
digit is optional, so the pattern matches exactly when the line has a digit. -/
def hasAnyDigit (l : Str) : Bool := l.any (fun c => c.isDigit)

/-- Semantics of `re.search(r'\d{4}', line)`: four consecutive digits. -/
def hasFourConsecDigits : Str → Bool
  | a :: b :: c :: d :: rest =>
    (a.isDigit && b.isDigit && c.isDigit && d.isDigit)
      || hasFourConsecDigits (b :: c :: d :: rest)
  | _ => false

/-- Python `line.endswith('...')`. -/
def endsWithEllipsis (l : Str) : Bool := startsWithL ['.', '.', '.'] l.reverse

/-- Does the line end with the character `c`? -/
def endsWithChar (c : Char) (l : Str) : Bool :=
  match l.getLast? with
  | some d => d == c
  | none => false

/-- Embedding of `TextCleaner._should_keep_line` (text_cleaner.py lines 215-243): protect a
line from globally-frequent removal if it has a digit run, a month name, four
consecutive digits, a period that is not a trailing ellipsis, or a quantity word. -/
def shouldKeepLine (line : Str) : Bool :=
  let l := trim line
  hasAnyDigit l || containsMonth l || hasFourConsecDigits l
    || (l.contains '.' && !endsWithEllipsis l)
    || quantityWordIn l

/-- Frequency counter (Python `collections.Counter`) as an association list. -/
abbrev Counter := List (Str × Nat)

/-- Python `counter[line] += 1`. -/
def bump : Counter → Str → Counter
  | [], l => [(l, 1)]
  | (k, n) :: rest, l => if k = l then (k, n + 1) :: rest else (k, n) :: bump rest l

/-- Increment the counter once per element of `ls`. -/
def bumpMany (c : Counter) (ls : List Str) : Counter := ls.foldl bump c

/-- Python `counter[line]` (0 when absent). -/
def countOf : Counter → Str → Nat
  | [], _ => 0
  | (k, n) :: rest, l => if k = l then n else countOf rest l

/-- Occurrences of `a` in a list. -/
def occCount {α : Type} [DecidableEq α] (a : α) : List α → Nat
  | [] => 0
  | b :: bs => (if b = a then 1 else 0) + occCount a bs

/-- Python `lines[:3]`. -/
def first3 (ls : List Str) : List Str := ls.take 3

/-- Python `lines[-3:]`. -/
def last3 (ls : List Str) : List Str := ls.drop (ls.length - 3)

/-- The `TextCleaner.__init__` parameters, with the code's defaults
(thresholds as exact rationals). -/
structure CleanParams where
  headerThreshold : ℚ := 3 / 10
  footerThreshold : ℚ := 3 / 10
  globalThreshold : ℚ := 35 / 100
  maxLineLength : Nat := 80

/-- Python `int(...)` on a nonnegative-or-negative rational: truncation toward zero. -/
def pyInt (q : ℚ) : ℤ := if 0 ≤ q then ⌊q⌋ else -⌊-q⌋

/-- Result of `TextCleaner.analyze_document`: the three detected pattern sets. -/
structure DocAnalysis where
  headers : List Str
  footers : List Str
  globallyFrequent : List Str

/-- One page's contribution to the three counters (the body of the
`for page in pages` loop of `analyze_document`, text_cleaner.py lines 74-94). -/
def pageStep (p : CleanParams) (acc : Counter × Counter × Counter) (text : Str) :
    Counter × Counter × Counter :=
  if trim text = [] then acc
  else
    let lines := pageLines text
    if lines = [] then acc
    else
      (bumpMany acc.1 (first3 lines),
       bumpMany acc.2.1 (last3 lines),
       bumpMany acc.2.2 (lines.filter (fun l => l.length ≤ p.maxLineLength)))

/-- Keys of the counter whose count is at least `m`. -/
def keysWithAtLeast (c : Counter) (m : ℤ) : List Str :=
  (c.filter (fun kv => decide (m ≤ (kv.2 : ℤ)))).map Prod.fst

/-- Embedding of `TextCleaner.analyze_document` (text_cleaner.py lines 49-113): build the
first-lines / last-lines / all-lines counters over the document and detect
headers, footers and globally frequent lines by the truncated count thresholds
`int(total_pages * threshold)`; globally frequent lines additionally pass
`not self._should_keep_line(line)`. -/
def analyzeDocument (p : CleanParams) (pages : List Str) : DocAnalysis :=
  if pages.length = 0 then ⟨[], [], []⟩
  else
    let cs := pages.foldl (pageStep p) ([], [], [])
    let total : ℚ := (pages.length : ℚ)
    let hmin := pyInt (total * p.headerThreshold)
    let fmin := pyInt (total * p.footerThreshold)
    let gmin := pyInt (total * p.globalThreshold)
    { headers := keysWithAtLeast cs.1 hmin
      footers := keysWithAtLeast cs.2.1 fmin
      globallyFrequent :=
        ((cs.2.2.filter (fun kv => decide (gmin ≤ (kv.2 : ℤ)) && !shouldKeepLine kv.1)).map
          Prod.fst) }

/-- Specification-side recount: total occurrences of `l` among the header
candidates (first three non-blank lines) over all pages. -/
def headerCandCount (pages : List Str) (l : Str) : Nat :=
  (pages.map (fun t => occCount l (first3 (pageLines t)))).sum

/-- Specification-side recount for footer candidates (last three non-blank lines). -/
def footerCandCount (pages : List Str) (l : Str) : Nat :=
  (pages.map (fun t => occCount l (last3 (pageLines t)))).sum

/-- Specification-side recount for global candidates (non-blank lines of length
at most `maxLineLength`). -/
def globalCandCount (p : CleanParams) (pages : List Str) (l : Str) : Nat :=
  (pages.map (fun t =>
    occCount l ((pageLines t).filter (fun x => x.length ≤ p.maxLineLength)))).sum

/-- Claim C5's reading of detection, following the spec's words: the line
occurs among the header candidates in at least `headerThreshold` fraction of
the document's pages. -/
def specHeaderDetected (p : CleanParams) (pages : List Str) (l : Str) : Prop :=
  p.headerThreshold * (pages.length : ℚ) ≤ (headerCandCount pages l : ℚ)

/-- Claim C6's protection conditions, following the claim's words, evaluated on
the stripped line (the candidate lines of the analysis are already stripped):
a decimal number, a 4-digit year, a month name, a sentence-ending period that
is not an ellipsis, or a quantity word. -/
def claimProtectedLine (line : Str) : Bool :=
  let l := trim line
  containsDecimalNum l || hasFourConsecDigits l || containsMonth l
    || (endsWithChar '.' l && !endsWithEllipsis l)
    || quantityWordIn l
where
  /-- digit `.` digit somewhere in the line. -/
  containsDecimalNum : Str → Bool
    | a :: b :: c :: rest =>
      (a.isDigit && b == '.' && c.isDigit) || containsDecimalNum (b :: c :: rest)
    | _ => false

/-! ## Chunker (src/src/ingest/document_chunker.py) -/

/-- One page of a cleaned document as the chunker reads it:
`page['metadata']['page']` and `page['text']`. -/
structure PageIn where
  page : Nat
  text : Str

/-- A chunk's metadata record (document_chunker.py lines 117-123). -/
structure ChunkMeta where
  pdf_name : String
  start_page : Nat
  end_page : Nat
  chunk_index : Nat
  ctype : String
deriving DecidableEq

/-- A chunk record (document_chunker.py lines 112-124). -/
structure ChunkData where
  id : String
  text : Str
  char_count : Nat
  word_count : Nat
  metadata : ChunkMeta
deriving DecidableEq

/-- Python `len(s.split())`: number of maximal whitespace-free runs.
`inw` records whether the previous character was inside a word. -/
def wordCountGo : Bool → Str → Nat
  | _, [] => 0
  | inw, c :: rest =>
    if wsChar c then wordCountGo false rest
    else (if inw then 0 else 1) + wordCountGo true rest

/-- Python `len(s.split())`. -/
def wordCount (l : Str) : Nat := wordCountGo false l

/-- Scan of Python `hay.find(needle, pos)`: smallest absolute index `≥ pos`
where `needle` occurs, scanning the remaining haystack. -/
def findSub (needle : Str) : Str → Nat → Option Nat
  | [], pos => if startsWithL needle [] then some pos else none
  | c :: rest, pos =>
    if startsWithL needle (c :: rest) then some pos else findSub needle rest (pos + 1)

/-- Python `hay.find(needle, start)` (absolute index, `none` for `-1`). -/
def findFrom (hay needle : Str) (start : Nat) : Option Nat :=
  findSub needle (hay.drop start) start

/-- Build one chunk record for a located piece (document_chunker.py
lines 108-124): pages are read off the character-to-page map at the first and
last character of the match. -/
def mkChunk (pageMap : List Nat) (pdfName : String) (chunkText : Str)
    (ctr startChar : Nat) : ChunkData :=
  let endChar := startChar + chunkText.length
  { id := pdfName ++ "_" ++ toString ctr
    text := chunkText
    char_count := chunkText.length
    word_count := wordCount chunkText
    metadata :=
      { pdf_name := pdfName
        start_page := pageMap.getD startChar 0
        end_page := pageMap.getD (min (endChar - 1) (pageMap.length - 1)) 0
        chunk_index := ctr
        ctype := "text" } }

/-- STEP 3 of `DocumentChunker.chunk_document` (lines 95-128): walk the split
pieces; discard pieces whose stripped text is under 15 characters; locate each
retained piece by forward search from the end of the previous match, falling
back to a full-buffer search; skip the piece if still not found; emitted
chunks get the dense counter as `chunk_index`. -/
def assignGo (fullText : Str) (pageMap : List Nat) (pdfName : String) :
    List Str → Nat → Nat → List ChunkData
  | [], _, _ => []
  | ct :: rest, ctr, searchStart =>
    if (trim ct).length < 15 then assignGo fullText pageMap pdfName rest ctr searchStart
    else
      match findFrom fullText ct searchStart with
      | some sc =>
        mkChunk pageMap pdfName ct ctr sc ::
          assignGo fullText pageMap pdfName rest (ctr + 1) (sc + ct.length)
      | none =>
        match findFrom fullText ct 0 with
        | some sc =>
          mkChunk pageMap pdfName ct ctr sc ::
            assignGo fullText pageMap pdfName rest (ctr + 1) (sc + ct.length)
        | none => assignGo fullText pageMap pdfName rest ctr searchStart

/-- STEP 1 of `DocumentChunker.chunk_document` (lines 70-82): concatenate every
page with non-blank text followed by `"\n\n"`, building the parallel
character-to-page map. -/
def buildFull (pages : List PageIn) : Str × List Nat :=
  pages.foldl
    (fun acc p =>
      if trim p.text = [] then acc
      else (acc.1 ++ p.text ++ ['\n', '\n'],
            acc.2 ++ List.replicate (p.text.length + 2) p.page))
    ([], [])

/-- Embedding of `DocumentChunker.chunk_document` (lines 48-128), with the LangChain
splitter abstracted as the external collaborator `splitter`: raise
`ValueError("No content found to chunk.")` when the assembled full text is
blank, otherwise assign metadata to the split pieces. -/
def chunkDocument (splitter : Str → List Str) (pdfName : String)
    (pages : List PageIn) : Except String (List ChunkData) :=
  let ft := (buildFull pages).1
  let pm := (buildFull pages).2
  if trim ft = [] then .error "No content found to chunk."
  else .ok (assignGo ft pm pdfName (splitter ft) 0 0)

/-! ## Retriever (src/src/rag/retriever.py) and store model -/

/-- Metadata attached to an embedded chunk as the store returns it
(the image bucket's metadata is written by `Embedder.embed_image_chunks`,
embed.py lines 159-165). -/
structure Meta where
  pdf_name : Option String := none
  page_number : Option Nat := none
  image_path : Option String := none
  mtype : String := "text"
deriving DecidableEq

/-- A retrieval hit as built by `Retriever._search` (retriever.py lines 113-117). -/
structure Hit where
  text : String
  metadata : Meta
  distance : ℚ
deriving DecidableEq

/-- The `SIMILARITY_THRESHOLD` constant (retriever.py line 108). -/
def SIMILARITY_THRESHOLD : ℚ := 7 / 10

/-- The filtering loop of `Retriever._search` (retriever.py lines 109-119):
zip the parallel documents / metadatas / distances sequences and keep the hits
whose distance is at most the threshold. -/
def retrSearch (docs : List String) (metas : List Meta) (dists : List ℚ) : List Hit :=
  loop (docs.zip (metas.zip dists))
where
  loop : List (String × Meta × ℚ) → List Hit
    | [] => []
    | (d, m, dist) :: rest =>
      if dist ≤ SIMILARITY_THRESHOLD then ⟨d, m, dist⟩ :: loop rest else loop rest

/-- Specification-side reformulation: the store's answer as a hit list. -/
def mkHits (docs : List String) (metas : List Meta) (dists : List ℚ) : List Hit :=
  (docs.zip (metas.zip dists)).map (fun t => ⟨t.1, t.2.1, t.2.2⟩)

/-- The similarity store (ChromaDB collaborator): collection names that exist,
their document counts, and the rank-ordered nearest-neighbour answer per
collection for the one embedded query (top-k search takes a count prefix). -/
structure VStore where
  names : List String
  count : String → Nat
  ranked : String → List (String × Meta × ℚ)

def regTextNames : List String := ["finreg_regulatory_text_store", "finreg_text_store"]

def regImageNames : List String := ["finreg_regulatory_image_store", "finreg_image_store"]

def uploadedTextName (uid : String) : String := "finreg_uploaded_text_" ++ uid

def uploadedImageName (uid : String) : String := "finreg_uploaded_image_" ++ uid

/-- The `Retriever._load_regulatory_collections` name fallback (retriever.py lines
45-69): the first candidate name that exists and has a nonzero count. -/
def pickReg (st : VStore) (names : List String) : Option String :=
  names.find? (fun n => st.names.contains n && st.count n > 0)

/-- Python truthiness of an optional string (`bool(None)` and `bool("")` are false). -/
def optTruthy : Option String → Bool
  | none => false
  | some u => !(u == "")

/-- The labelled text collections the retriever loads for a mode
(retriever.py lines 30-40): regulatory first, then the session's uploaded
collection when it exists. -/
def loadedText (st : VStore) (mode uid : String) : List (String × String) :=
  (if mode == "regulatory_only" || mode == "compare" then
    (pickReg st regTextNames).toList.map (fun n => ("regulatory", n))
  else [])
  ++ (if mode == "uploaded_only" || mode == "compare" then
    (if st.names.contains (uploadedTextName uid) then [("uploaded", uploadedTextName uid)]
     else [])
  else [])

/-- The labelled image collections the retriever loads for a mode. -/
def loadedImage (st : VStore) (mode uid : String) : List (String × String) :=
  (if mode == "regulatory_only" || mode == "compare" then
    (pickReg st regImageNames).toList.map (fun n => ("regulatory", n))
  else [])
  ++ (if mode == "uploaded_only" || mode == "compare" then
    (if st.names.contains (uploadedImageName uid) then [("uploaded", uploadedImageName uid)]
     else [])
  else [])

/-- The `Retriever.search` output buckets (retriever.py lines 131-136). -/
structure RetrOut where
  uploadedText : List Hit := []
  regulatoryText : List Hit := []
  uploadedImages : List Hit := []
  regulatoryImages : List Hit := []
deriving DecidableEq

/-- One collection's filtered hits: the store returns the top-k answer as
parallel documents / metadatas / distances sequences, which `_search` zips and
filters by the threshold. -/
def searchCol (st : VStore) (k : Nat) (n : String) : List Hit :=
  let tr := (st.ranked n).take k
  retrSearch (tr.map (fun t => t.1)) (tr.map (fun t => t.2.1)) (tr.map (fun t => t.2.2))

/-- Embedding of `Retriever.search` (retriever.py lines 124-152): `k = 5` in compare mode,
else 3; extend each labelled bucket from its loaded collections in order. -/
def querySearch (st : VStore) (mode uid : String) : RetrOut :=
  let k := if mode == "compare" then 5 else 3
  let textHits := fun lab =>
    ((loadedText st mode uid).filter (fun p => p.1 == lab)).map (fun p => searchCol st k p.2)
  let imageHits := fun lab =>
    ((loadedImage st mode uid).filter (fun p => p.1 == lab)).map (fun p => searchCol st k p.2)
  { uploadedText := (textHits "uploaded").flatten
    regulatoryText := (textHits "regulatory").flatten
    uploadedImages := (imageHits "uploaded").flatten
    regulatoryImages := (imageHits "regulatory").flatten }

/-! ## Orchestrator state machine (src/src/graph/query_graph.py and agents) -/

/-- A deduplicated web search result (web_agent.py lines 34-38). -/
structure WebResult where
  title : String
  url : String
  snippet : String
deriving DecidableEq

/-- A raw result from the web search collaborator (`ddgs.text`), whose fields
are read with `r.get(...)`. -/
structure RawWeb where
  title : Option String := none
  href : Option String := none
  body : Option String := none

/-- The `GraphState` dictionary threaded through the stages (query_graph.py
lines 10-23). Fields the code reads through `state.get(key, default)` carry
that default as the record default; `mode` is absent until `IntentAgent` sets
it, hence an `Option`. -/
structure QState where
  query : String
  uploadId : Option String
  mode : Option String := none
  needWeb : Bool := false
  verbose : Bool := false
  uploadedText : List Hit := []
  regulatoryText : List Hit := []
  uploadedImages : List Hit := []
  regulatoryImages : List Hit := []
  webResults : List WebResult := []
  answer : Option String := none
  images : List String := []
  progress : List String := []

/-- Embedding of `IntentAgent.run` (intent.py lines 42-112) with the classification
collaborator abstracted: `classified` is the parsed `mode` field of the LLM
output (`none` when JSON parsing fails or the key is missing, in which case the
code keeps the default `"regulatory_only"`). A classified `"web"` first sets
`need_web`; then any mode outside the allowed set for the upload context is
coerced to `"regulatory_only"`. -/
def intentRun (classified : Option String) (s : QState) : QState :=
  let hasUpload := optTruthy s.uploadId
  let s := { s with progress := s.progress ++ ["🧭 Determining query intent..."] }
  let mode0 := classified.getD "regulatory_only"
  let allowedModes :=
    if hasUpload then ["regulatory_only", "uploaded_only", "compare"]
    else ["regulatory_only", "web"]
  let s := if mode0 == "web" then { s with needWeb := true } else s
  let mode1 := if allowedModes.contains mode0 then mode0 else "regulatory_only"
  { s with mode := some mode1 }

/-- Total hit count across the four buckets. -/
def totalHits (s : QState) : Nat :=
  s.uploadedText.length + s.regulatoryText.length
    + s.uploadedImages.length + s.regulatoryImages.length

/-- Embedding of `RetrievalAgent.run` (retrieval_agent.py lines 9-52) composed with the
`Retriever` constructor (which raises `ValueError` for an uploaded mode without
a session id, retriever.py lines 36-38): fill the four buckets, then set
`need_web` to true exactly when the total hit count is zero. -/
def retrievalRun (st : VStore) (s : QState) : Except String QState :=
  let mode := s.mode.getD "regulatory_only"
  let s := { s with progress := s.progress ++ ["🔎 Searching knowledge base..."] }
  if (mode == "uploaded_only" || mode == "compare") && !optTruthy s.uploadId then
    .error "upload_id required for uploaded mode"
  else
    let out := querySearch st mode (s.uploadId.getD "")
    let total := out.uploadedText.length + out.regulatoryText.length
      + out.uploadedImages.length + out.regulatoryImages.length
    let s := { s with
      uploadedText := out.uploadedText
      regulatoryText := out.regulatoryText
      uploadedImages := out.uploadedImages
      regulatoryImages := out.regulatoryImages }
    if total == 0 then
      .ok { s with needWeb := true,
                   progress := s.progress ++ ["⚠️  Nothing in KB — trying web search..."] }
    else
      let reg := out.regulatoryText.length + out.regulatoryImages.length
      let upl := out.uploadedText.length + out.uploadedImages.length
      .ok { s with needWeb := false,
                   progress := s.progress ++
                     ["✅ Found " ++ toString reg ++ " regulatory chunk(s), "
                       ++ toString upl ++ " uploaded chunk(s)."] }

/-- Embedding of `_route_after_retrieval` (query_graph.py lines 26-27). -/
def routeAfterRetrieval (s : QState) : String :=
  if s.needWeb then "web" else "final"

/-- The URL-deduplicating collection loop of `WebAgent.run` (web_agent.py
lines 29-38): skip results with a falsy or already-seen `href`; the snippet is
the body truncated to 800 characters. -/
def dedupWeb (seen : List String) : List RawWeb → List WebResult
  | [] => []
  | r :: rest =>
    match r.href with
    | none => dedupWeb seen rest
    | some url =>
      if url == "" || seen.contains url then dedupWeb seen rest
      else ⟨r.title.getD "", url, (r.body.getD "").take 800⟩ :: dedupWeb (url :: seen) rest

/-- Embedding of `WebAgent.run` (web_agent.py lines 12-51) with the search collaborator
abstracted as `collab` (the `ddgs.text` call returns a whole result list or
raises): skip when `need_web` is unset; on failure record the reason and leave
the collected results empty; never propagate the error. -/
def webRun (collab : Except String (List RawWeb)) (s : QState) : QState :=
  if !s.needWeb then s
  else
    let s := { s with progress := s.progress ++ ["🌐 Searching web as fallback..."] }
    match collab with
    | .error e =>
      { s with webResults := [],
               progress := s.progress ++ ["🌐 Web search failed: " ++ e] }
    | .ok raws =>
      let results := dedupWeb [] raws
      let msg :=
        if results.isEmpty then "🌐 Web search returned no results."
        else "🌐 Web returned " ++ toString results.length ++ " result(s)."
      { s with webResults := results, progress := s.progress ++ [msg] }

/-- The values a retrieval-hit dictionary `{"text", "metadata", "distance"}`
can hold (the shape built by `Retriever._search`). -/
inductive HVal
  | str (v : String)
  | meta (m : Meta)
  | num (q : ℚ)
deriving DecidableEq

/-- Python `hit.get(key)` on the dictionary `Retriever._search` builds: only
the keys `"text"`, `"metadata"` and `"distance"` exist; any other key yields
`None`. -/
def hitGet (h : Hit) (k : String) : Option HVal :=
  if k == "text" then some (.str h.text)
  else if k == "metadata" then some (.meta h.metadata)
  else if k == "distance" then some (.num h.distance)
  else none

/-- Python truthiness of a dictionary value. -/
def truthyHVal : HVal → Bool
  | .str v => !(v == "")
  | .meta _ => true
  | .num q => !(q == 0)

/-- The `image_paths` computation of `FinalAgent.run` (final_agent.py lines
90-93): `[i.get("image_path") for i in uploaded_images if i.get("image_path")]`
plus the same over `regulatory_images` — a top-level `get` on the hit
dictionary, not a lookup inside its `metadata`. -/
def finalImagePaths (uploadedImages regulatoryImages : List Hit) : List HVal :=
  (uploadedImages.filterMap (fun i =>
    (hitGet i "image_path").bind (fun v => if truthyHVal v then some v else none)))
  ++ (regulatoryImages.filterMap (fun i =>
    (hitGet i "image_path").bind (fun v => if truthyHVal v then some v else none)))

/-- String rendering of a truthy path value for the returned `images` list. -/
def hvalStr : HVal → Option String
  | .str t => some t
  | _ => none

/-- Embedding of `fmt_blocks` (final_agent.py lines 36-39). -/
def fmtBlocks (blocks : List Hit) (label : String) : String :=
  if blocks.isEmpty then ""
  else String.intercalate "\n\n"
    (blocks.map (fun b => "[" ++ label ++ "]\n" ++ b.text))

/-- Embedding of `fmt_web` (final_agent.py lines 41-47). -/
def fmtWeb (results : List WebResult) : String :=
  if results.isEmpty then ""
  else String.intercalate "\n\n"
    (results.map (fun r =>
      "[WEB]\nTitle: " ++ r.title ++ "\nURL: " ++ r.url ++ "\nSnippet: " ++ r.snippet))

/-- The structured prompt `FinalAgent.run` assembles (final_agent.py lines
49-78): only sections with content are included. -/
def buildContext (s : QState) : String :=
  let mode := s.mode.getD "regulatory_only"
  let regT := fmtBlocks s.regulatoryText "REGULATORY_KB"
  let uplT := fmtBlocks s.uploadedText "UPLOADED_DOC"
  let regI := fmtBlocks s.regulatoryImages "REGULATORY_IMAGE"
  let uplI := fmtBlocks s.uploadedImages "UPLOADED_IMAGE"
  let web := fmtWeb s.webResults
  let sections :=
    (if regT == "" then [] else ["--- Regulatory Knowledge Base ---\n" ++ regT])
    ++ (if uplT == "" then [] else ["--- Uploaded Document ---\n" ++ uplT])
    ++ (if regI == "" then [] else ["--- Regulatory Images ---\n" ++ regI])
    ++ (if uplI == "" then [] else ["--- Uploaded Images ---\n" ++ uplI])
    ++ (if web == "" then [] else ["--- Web Search Results ---\n" ++ web])
  let body := if sections.isEmpty then "No context available." else
    String.intercalate "\n\n" sections
  let vstr := if s.verbose then "True" else "False"
  "User Question: " ++ s.query ++ "\n\nExecution Mode: " ++ mode
    ++ "\nVerbose: " ++ vstr ++ "\n\n" ++ body

/-- Embedding of `FinalAgent.run` (final_agent.py lines 17-99) with the answer-synthesis
collaborator abstracted as `llm`: build the merged context, call the LLM, and
return the state with the answer and the (string) image paths. -/
def finalRun (llm : String → String) (s : QState) : QState :=
  let s := { s with progress := s.progress ++ ["🤖 Generating answer..."] }
  let response := llm (buildContext s)
  let s := { s with progress := s.progress ++ ["✅ Answer ready."] }
  let paths := finalImagePaths s.uploadedImages s.regulatoryImages
  { s with answer := some response,
           images := (paths.filter truthyHVal).filterMap hvalStr }

/-- The state reaching the Retrieve stage (graph edge `intent → retrieve`,
query_graph.py line 43). -/
def runToStage2 (classified : Option String) (st : VStore) (q : String)
    (uid : Option String) : Except String QState :=
  retrievalRun st (intentRun classified { query := q, uploadId := uid })

/-- Did a stage raise? -/
def exIsOk {α : Type} : Except String α → Bool
  | .ok _ => true
  | .error _ => false

/-- Extract the state of a non-raising stage result. -/
def okState (e : Except String QState) : QState :=
  match e with
  | .ok s => s
  | .error _ => { query := "", uploadId := none }

/-- The compiled query graph (query_graph.py lines 30-52):
`intent → retrieve → {web | final}` with `web → final`, each stage threading
the shared state. -/
def runQuery (classified : Option String) (st : VStore)
    (collab : Except String (List RawWeb)) (llm : String → String)
    (q : String) (uid : Option String) : Except String QState :=
  match runToStage2 classified st q uid with
  | .error e => .error e
  | .ok s2 =>
    let s3 := if routeAfterRetrieval s2 == "web" then webRun collab s2 else s2
    .ok (finalRun llm s3)

/-- The mode `RetrievalAgent.run` reads from the state it receives
(retrieval_agent.py line 12). -/
def retrieveStageMode (classified : Option String) (q : String)
    (uid : Option String) : String :=
  (intentRun classified { query := q, uploadId := uid }).mode.getD "regulatory_only"

/-- The legal mode set for an upload context (the `allowed_modes` lists of
intent.py lines 94-97). -/
def legalModes (uid : Option String) : List String :=
  if optTruthy uid then ["regulatory_only", "uploaded_only", "compare"]
  else ["regulatory_only", "web"]

/-! ## Router session lifecycle (src/src/core/router.py) -/

/-- Filesystem directories and store collections a session can own. -/
structure SysState where
  dirs : List String
  cols : List String
deriving DecidableEq

def uploadsDir (uid : String) : String := "uploads/" ++ uid

def tempDir (uid : String) : String := "temp/" ++ uid

/-- ChromaDB `delete_collection`: raises when the collection does not exist. -/
def delCollectionExc (cols : List String) (n : String) : Except String (List String) :=
  if cols.contains n then .ok (cols.filter (fun m => !(m == n)))
  else .error "Collection does not exist."

/-- Python `try: client.delete_collection(name) except Exception: pass`
(router.py lines 103-107). -/
def tryDelCollection (cols : List String) (n : String) : List String :=
  match delCollectionExc cols n with
  | .ok c => c
  | .error _ => cols

/-- Python `if folder.exists(): shutil.rmtree(folder)` (router.py lines 92-93). -/
def removeDir (dirs : List String) (d : String) : List String :=
  if dirs.contains d then dirs.filter (fun m => !(m == d)) else dirs

/-- Embedding of `Router._cleanup` (router.py lines 85-109): delete the session's upload
and temp directories and both uploaded collections, tolerating absence. -/
def routerCleanup (uid : String) (st : SysState) : SysState :=
  { dirs := removeDir (removeDir st.dirs (uploadsDir uid)) (tempDir uid)
    cols := tryDelCollection (tryDelCollection st.cols (uploadedTextName uid))
              (uploadedImageName uid) }

/-- The `Router.save_uploaded_files` effect on the model state: the session's
upload directory exists afterwards. -/
def saveFiles (uid : String) (st : SysState) : SysState :=
  if st.dirs.contains (uploadsDir uid) then st
  else { st with dirs := uploadsDir uid :: st.dirs }

/-- Outcome value of `Router.handle_input`. -/
inductive RVal
  | queryResult
  | ingestedMsg (uid : String)
  | noInput
deriving DecidableEq

/-- Result of a `handle_input` invocation: the returned value or propagated
exception, the final system state, and how many times `_cleanup` ran. -/
structure HIResult where
  out : Except String RVal
  sys : SysState
  cleanups : Nat

/-- Python truthiness of the `files` argument (a possibly-empty list or `None`). -/
def optFilesTruthy : Option (List String) → Bool
  | none => false
  | some fs => !fs.isEmpty

/-- The session id a query-running invocation uses: generated when files are
given without an id (router.py lines 203-204), else the given id. -/
def sessionIdOf (files : Option (List String)) (uploadId0 : Option String)
    (genId : String) : String :=
  if optFilesTruthy files && !optTruthy uploadId0 then genId else uploadId0.getD ""

/-- Embedding of `Router.handle_input` (router.py lines 183-237) with the ingestion pipeline
and the query graph abstracted: `ingest uid` returns the possibly-mutated
system state together with its outcome, `invoke` is the graph call's outcome.
Patterns A (files + query) and B step 2 (query + upload_id) wrap the work in
`try: ... finally: self._cleanup(upload_id)`. -/
def handleInput (ingest : String → SysState → SysState × Except String Unit)
    (invoke : Except String Unit) (query : Option String)
    (files : Option (List String)) (uploadId0 : Option String) (genId : String)
    (st : SysState) : HIResult :=
  let uploadId : Option String :=
    if optFilesTruthy files && !optTruthy uploadId0 then some genId else uploadId0
  if optFilesTruthy files then
    let uid := uploadId.getD ""
    let st := saveFiles uid st
    if optTruthy query then
      let r := ingest uid st
      let body : Except String RVal :=
        match r.2 with
        | .error e => .error e
        | .ok _ =>
          match invoke with
          | .error e => .error e
          | .ok _ => .ok .queryResult
      ⟨body, routerCleanup uid r.1, 1⟩
    else
      let r := ingest uid st
      match r.2 with
      | .error e => ⟨.error e, r.1, 0⟩
      | .ok _ => ⟨.ok (.ingestedMsg uid), r.1, 0⟩
  else if optTruthy query && optTruthy uploadId then
    let uid := uploadId.getD ""
    let body : Except String RVal :=
      match invoke with
      | .error e => .error e
      | .ok _ => .ok .queryResult
    ⟨body, routerCleanup uid st, 1⟩
  else if optTruthy query then
    match invoke with
    | .error e => ⟨.error e, st, 0⟩
    | .ok _ => ⟨.ok .queryResult, st, 0⟩
  else ⟨.ok .noInput, st, 0⟩

/-! ## Concrete instances used by witnesses and counterexamples -/

/-- A document whose every page repeats a protected line. -/
def docProtected : List Str :=
  ["Total assets.\nalpha", "Total assets.\nbeta", "Total assets.\ngamma"].map String.toList

/-- A 7-page document in which the line `HDR` heads exactly 2 pages:
`2/7 < 0.3` yet `2 >= int(7 * 0.3) = 2`. -/
def doc7 : List Str :=
  ["HDR\naaa", "HDR\nbbb", "ccc", "ddd", "eee", "fff", "ggg"].map String.toList

/-- A store holding only the regulatory text collection, with one close hit. -/
def stC2 : VStore :=
  { names := ["finreg_regulatory_text_store"]
    count := fun n => if n == "finreg_regulatory_text_store" then 1 else 0
    ranked := fun n =>
      if n == "finreg_regulatory_text_store" then [("Reg passage", {}, 1 / 2)] else [] }

/-- A store with no collections at all (every retrieval bucket comes back empty). -/
def stEmpty : VStore := { names := [], count := fun _ => 0, ranked := fun _ => [] }

/-- A web collaborator result with a fresh URL. -/
def rawW : RawWeb := { title := some "T", href := some "http://x", body := some "B" }

/-- A constant answer-synthesis collaborator. -/
def llmK : String → String := fun _ => "answer"

/-- An image-bucket hit exactly as the retriever builds it from the embedder's
metadata (embed.py lines 159-165): the image path sits inside `metadata`. -/
def imgHitC8 : Hit :=
  { text := "Chart: capital ratios"
    metadata := { pdf_name := some "doc", page_number := some 1
                  image_path := some "temp/u1/extracted/charts/page1.png"
                  mtype := "chart" }
    distance := 1 / 10 }

/-- A query state entering the Final stage with one regulatory image hit that
carries an image path in its metadata. -/
def stateC8 : QState :=
  { query := "What does the chart show?", uploadId := none
    mode := some "regulatory_only", regulatoryImages := [imgHitC8] }

/-- An ingestion collaborator that fails without mutating the system state. -/
def ingC : String → SysState → SysState × Except String Unit :=
  fun _ st => (st, .error "ingest failed")

/-- A graph invocation that raises. -/
def invC : Except String Unit := .error "graph failure"

/-- A system state already holding the session's directories and collections. -/
def sysC4 : SysState :=
  { dirs := ["uploads/s1", "temp/s1"]
    cols := ["finreg_uploaded_text_s1", "finreg_uploaded_image_s1"] }

/-! ## Supporting lemmas -/

theorem retrSearch_loop_eq_filter (ts : List (String × Meta × ℚ)) :
    retrSearch.loop ts
      = ((ts.map (fun t => (⟨t.1, t.2.1, t.2.2⟩ : Hit))).filter
          (fun h => decide (h.distance ≤ SIMILARITY_THRESHOLD))) := by
  induction ts with
  | nil => rfl
  | cons t rest ih =>
    obtain ⟨d, m, q⟩ := t
    by_cases h : q ≤ SIMILARITY_THRESHOLD <;>
      simp [retrSearch.loop, ih, h, List.filter_cons]

theorem mem_mkHits_dist {docs : List String} {metas : List Meta} {dists : List ℚ}
    {h : Hit} (hm : h ∈ mkHits docs metas dists) : h.distance ∈ dists := by
  unfold mkHits at hm
  obtain ⟨t, ht, rfl⟩ := List.mem_map.mp hm
  obtain ⟨d, m, q⟩ := t
  have h1 := List.of_mem_zip ht
  have h2 := List.of_mem_zip h1.2
  exact h2.2

theorem assignGo_indices (ft : Str) (pm : List Nat) (n : String) :
    ∀ (ps : List Str) (ctr ss : Nat),
      (assignGo ft pm n ps ctr ss).map (fun c => c.metadata.chunk_index)
        = List.range' ctr (assignGo ft pm n ps ctr ss).length := by
  intro ps
  induction ps with
  | nil => intro ctr ss; rfl
  | cons ct rest ih =>
    intro ctr ss
    by_cases hshort : (trim ct).length < 15
    · simp only [assignGo, if_pos hshort]
      exact ih ctr ss
    · simp only [assignGo, if_neg hshort]
      cases hf : findFrom ft ct ss with
      | some sc =>
        simp [List.range'_succ, ih (ctr + 1) (sc + ct.length), mkChunk]
      | none =>
        cases hf0 : findFrom ft ct 0 with
        | some sc =>
          simp [List.range'_succ, ih (ctr + 1) (sc + ct.length), mkChunk]
        | none => exact ih ctr ss

theorem buildFull_blank {pages : List PageIn} (h : ∀ p ∈ pages, trim p.text = []) :
    buildFull pages = ([], []) := by
  unfold buildFull
  have : ∀ (acc : Str × List Nat),
      pages.foldl
        (fun acc p =>
          if trim p.text = [] then acc
          else (acc.1 ++ p.text ++ ['\n', '\n'],
                acc.2 ++ List.replicate (p.text.length + 2) p.page)) acc = acc := by
    induction pages with
    | nil => intro acc; rfl
    | cons p rest ih =>
      intro acc
      have hp : trim p.text = [] := h p (by simp)
      simp only [List.foldl_cons, if_pos hp]
      exact ih (fun q hq => h q (by simp [hq])) acc
  exact this ([], [])

/-! ### Counter lemmas -/

/-- Well-formedness of a counter: positive counts and no duplicate keys. -/
def CWF (c : Counter) : Prop :=
  (∀ kv ∈ c, 1 ≤ kv.2) ∧ (c.map Prod.fst).Nodup

theorem countOf_bump_self (c : Counter) (l : Str) :
    countOf (bump c l) l = countOf c l + 1 := by
  induction c with
  | nil => simp [bump, countOf]
  | cons kv rest ih =>
    obtain ⟨k, n⟩ := kv
    by_cases h : k = l
    · subst h; simp [bump, countOf]
    · simp [bump, countOf, h, ih]

theorem countOf_bump_ne (c : Counter) {l k : Str} (h : k ≠ l) :
    countOf (bump c l) k = countOf c k := by
  induction c with
  | nil => simp [bump, countOf, Ne.symm h]
  | cons kv rest ih =>
    obtain ⟨k', n⟩ := kv
    by_cases h' : k' = l
    · subst h'
      simp [bump, countOf, Ne.symm h]
    · by_cases h'' : k' = k
      · subst h''; simp [bump, countOf, h']
      · simp [bump, countOf, h', h'', ih]

theorem bump_keys (c : Counter) (l : Str) :
    (bump c l).map Prod.fst
      = if l ∈ c.map Prod.fst then c.map Prod.fst else c.map Prod.fst ++ [l] := by
  induction c with
  | nil => simp [bump]
  | cons kv rest ih =>
    obtain ⟨k, n⟩ := kv
    by_cases h : k = l
    · subst h; simp [bump]
    · simp only [bump, if_neg h, List.map_cons]
      by_cases hm : l ∈ rest.map Prod.fst
      · simp [ih, hm, Ne.symm h]
      · simp [ih, hm, Ne.symm h]

theorem CWF_bump {c : Counter} (h : CWF c) (l : Str) : CWF (bump c l) := by
  constructor
  · intro kv hkv
    induction c with
    | nil =>
      simp [bump] at hkv
      simp [hkv]
    | cons kv' rest ih =>
      obtain ⟨k, n⟩ := kv'
      by_cases hk : k = l
      · subst hk
        simp only [bump, if_pos rfl] at hkv
        rcases List.mem_cons.mp hkv with rfl | hm
        · omega
        · exact h.1 _ (List.mem_cons_of_mem _ hm)
      · simp only [bump, if_neg hk] at hkv
        rcases List.mem_cons.mp hkv with rfl | hm
        · exact h.1 _ (List.mem_cons_self _ _)
        · exact ih ⟨fun x hx => h.1 x (List.mem_cons_of_mem _ hx),
            (List.nodup_cons.mp h.2).2⟩ hm
  · rw [bump_keys]
    by_cases hm : l ∈ c.map Prod.fst
    · simpa [hm] using h.2
    · simp only [if_neg hm]
      exact List.Nodup.append h.2 (List.nodup_singleton l)
        (by simpa [List.disjoint_singleton] using hm)

theorem countOf_bumpMany (ls : List Str) : ∀ (c : Counter) (l : Str),
    countOf (bumpMany c ls) l = countOf c l + occCount l ls := by
  induction ls with
  | nil => intro c l; simp [bumpMany, occCount]
  | cons a as ih =>
    intro c l
    have : bumpMany c (a :: as) = bumpMany (bump c a) as := rfl
    rw [this, ih]
    by_cases h : a = l
    · subst h; rw [countOf_bump_self]; simp [occCount]; omega
    · rw [countOf_bump_ne c (fun he => h he.symm)]
      simp [occCount, h]

theorem CWF_bumpMany (ls : List Str) : ∀ {c : Counter}, CWF c → CWF (bumpMany c ls) := by
  induction ls with
  | nil => intro c h; exact h
  | cons a as ih => intro c h; exact ih (CWF_bump h a)

theorem countOf_eq_of_mem : ∀ (c : Counter), (c.map Prod.fst).Nodup →
    ∀ {l : Str} {n : Nat}, (l, n) ∈ c → countOf c l = n := by
  intro c
  induction c with
  | nil => intro _ l n h; simp at h
  | cons kv rest ih =>
    intro hnd l n h
    obtain ⟨k, m⟩ := kv
    rw [List.map_cons] at hnd
    have hnd' := List.nodup_cons.mp hnd
    rcases List.mem_cons.mp h with heq | hm
    · injection heq with hk hn
      subst hk
      subst hn
      simp [countOf]
    · have hk : k ≠ l := by
        intro hkl
        exact hnd'.1 (by rw [hkl]; exact List.mem_map.mpr ⟨(l, n), hm, rfl⟩)
      simp only [countOf, if_neg hk]
      exact ih hnd'.2 hm

theorem mem_self_countOf {c : Counter} {l : Str} (h : 1 ≤ countOf c l) :
    (l, countOf c l) ∈ c := by
  induction c with
  | nil => simp [countOf] at h
  | cons kv rest ih =>
    obtain ⟨k, n⟩ := kv
    by_cases hk : k = l
    · subst hk
      simp only [countOf, if_pos rfl] at h ⊢
      exact List.mem_cons_self _ _
    · simp only [countOf, if_neg hk] at h ⊢
      exact List.mem_cons_of_mem _ (ih h)

theorem mem_filterKeys {c : Counter} {l : Str} {p : Str × Nat → Bool} (h : CWF c) :
    l ∈ (c.filter p).map Prod.fst ↔ 1 ≤ countOf c l ∧ p (l, countOf c l) = true := by
  constructor
  · intro hm
    obtain ⟨kv, hkv, hfst⟩ := List.mem_map.mp hm
    obtain ⟨hin, hp⟩ := List.mem_filter.mp hkv
    obtain ⟨k, n⟩ := kv
    cases hfst
    have hc := countOf_eq_of_mem _ h.2 hin
    rw [hc]
    exact ⟨hc ▸ h.1 _ hin, hp⟩
  · rintro ⟨h1, hp⟩
    exact List.mem_map.mpr ⟨(l, countOf c l), List.mem_filter.mpr ⟨mem_self_countOf h1, hp⟩, rfl⟩

/-! ### Blank-page lemmas -/

theorem trim_eq_nil_iff (l : Str) : trim l = [] ↔ ∀ c ∈ l, wsChar c = true := by
  unfold trim
  rw [List.reverse_eq_nil_iff, List.dropWhile_eq_nil_iff]
  constructor
  · intro h c hc
    have hsplit : l = l.takeWhile wsChar ++ l.dropWhile wsChar :=
      (List.takeWhile_append_dropWhile wsChar l).symm
    rw [hsplit] at hc
    rcases List.mem_append.mp hc with h1 | h2
    · exact List.mem_takeWhile_imp h1
    · exact h c (List.mem_reverse.mpr h2)
  · intro h c hc
    have : c ∈ l.dropWhile wsChar := List.mem_reverse.mp hc
    have hcl : c ∈ l :=
      List.takeWhile_append_dropWhile wsChar l ▸ List.mem_append.mpr (Or.inr this)
    exact h c hcl

theorem splitLines_ne_nil : ∀ (t : Str), splitLines t ≠ [] := by
  intro t
  cases t with
  | nil => simp [splitLines]
  | cons c rest =>
    rw [splitLines]
    split
    · simp
    · split <;> simp

theorem mem_splitLines_chars : ∀ (t : Str) (l : Str) (c : Char),
    l ∈ splitLines t → c ∈ l → c ∈ t := by
  intro t
  induction t with
  | nil =>
    intro l c hl hc
    simp [splitLines] at hl
    subst hl
    simp at hc
  | cons a rest ih =>
    intro l c hl hc
    rw [splitLines] at hl
    by_cases ha : (a == '\n') = true
    · rw [if_pos ha] at hl
      rcases List.mem_cons.mp hl with rfl | hm
      · simp at hc
      · exact List.mem_cons_of_mem _ (ih l c hm hc)
    · rw [if_neg ha] at hl
      cases hsr : splitLines rest with
      | nil => exact absurd hsr (splitLines_ne_nil rest)
      | cons h1 t1 =>
        rw [hsr] at hl
        rcases List.mem_cons.mp hl with rfl | htail
        · rcases List.mem_cons.mp hc with rfl | hch
          · exact List.mem_cons_self _ _
          · have : c ∈ rest := ih h1 c (by rw [hsr]; exact List.mem_cons_self _ _) hch
            exact List.mem_cons_of_mem _ this
        · have : c ∈ rest := ih l c (by rw [hsr]; exact List.mem_cons_of_mem _ htail) hc
          exact List.mem_cons_of_mem _ this

theorem blank_pageLines {t : Str} (h : trim t = []) : pageLines t = [] := by
  unfold pageLines
  apply List.filter_eq_nil_iff.mpr
  intro a ha
  obtain ⟨l, hl, rfl⟩ := List.mem_map.mp ha
  have hall := (trim_eq_nil_iff t).mp h
  have hws : ∀ c ∈ l, wsChar c = true :=
    fun c hc => hall c (mem_splitLines_chars t l c hl hc)
  have htl : trim l = [] := (trim_eq_nil_iff l).mpr hws
  simp [htl]

/-! ### Page-fold count lemmas -/

theorem pageStep_counts (p : CleanParams) (acc : Counter × Counter × Counter)
    (t : Str) (l : Str) :
    countOf ((pageStep p acc t).1) l = countOf acc.1 l + occCount l (first3 (pageLines t))
    ∧ countOf ((pageStep p acc t).2.1) l
        = countOf acc.2.1 l + occCount l (last3 (pageLines t))
    ∧ countOf ((pageStep p acc t).2.2) l
        = countOf acc.2.2 l
            + occCount l ((pageLines t).filter (fun x => x.length ≤ p.maxLineLength)) := by
  unfold pageStep
  by_cases hb : trim t = []
  · have hpl : pageLines t = [] := blank_pageLines hb
    rw [if_pos hb]
    simp [hpl, first3, last3, occCount]
  · rw [if_neg hb]
    dsimp only
    by_cases hl : pageLines t = []
    · rw [if_pos hl]
      simp [hl, first3, last3, occCount]
    · rw [if_neg hl]
      exact ⟨countOf_bumpMany _ _ _, countOf_bumpMany _ _ _, countOf_bumpMany _ _ _⟩

theorem foldl_pageStep_counts (p : CleanParams) (l : Str) : ∀ (pages : List Str)
    (acc : Counter × Counter × Counter),
    countOf ((pages.foldl (pageStep p) acc).1) l = countOf acc.1 l + headerCandCount pages l
    ∧ countOf ((pages.foldl (pageStep p) acc).2.1) l
        = countOf acc.2.1 l + footerCandCount pages l
    ∧ countOf ((pages.foldl (pageStep p) acc).2.2) l
        = countOf acc.2.2 l + globalCandCount p pages l := by
  intro pages
  induction pages with
  | nil =>
    intro acc
    simp [headerCandCount, footerCandCount, globalCandCount]
  | cons t rest ih =>
    intro acc
    simp only [List.foldl_cons]
    obtain ⟨h1, h2, h3⟩ := ih (pageStep p acc t)
    obtain ⟨g1, g2, g3⟩ := pageStep_counts p acc t l
    refine ⟨?_, ?_, ?_⟩
    · rw [h1, g1]
      simp [headerCandCount]
      omega
    · rw [h2, g2]
      simp [footerCandCount]
      omega
    · rw [h3, g3]
      simp [globalCandCount]
      omega

theorem CWF_pageStep (p : CleanParams) {acc : Counter × Counter × Counter} (t : Str)
    (h : CWF acc.1 ∧ CWF acc.2.1 ∧ CWF acc.2.2) :
    CWF (pageStep p acc t).1 ∧ CWF (pageStep p acc t).2.1 ∧ CWF (pageStep p acc t).2.2 := by
  unfold pageStep
  by_cases hb : trim t = []
  · rw [if_pos hb]; exact h
  · rw [if_neg hb]
    dsimp only
    by_cases hl : pageLines t = []
    · rw [if_pos hl]; exact h
    · rw [if_neg hl]
      exact ⟨CWF_bumpMany _ h.1, CWF_bumpMany _ h.2.1, CWF_bumpMany _ h.2.2⟩

theorem CWF_foldl_pageStep (p : CleanParams) : ∀ (pages : List Str)
    (acc : Counter × Counter × Counter),
    CWF acc.1 ∧ CWF acc.2.1 ∧ CWF acc.2.2 →
    CWF ((pages.foldl (pageStep p) acc).1)
    ∧ CWF ((pages.foldl (pageStep p) acc).2.1)
    ∧ CWF ((pages.foldl (pageStep p) acc).2.2) := by
  intro pages
  induction pages with
  | nil => intro acc h; exact h
  | cons t rest ih =>
    intro acc h
    exact ih (pageStep p acc t) (CWF_pageStep p t h)

theorem CWF_nil : CWF ([] : Counter) := ⟨by simp, by simp⟩

/-! ### Router cleanup lemmas -/

theorem mem_of_mem_removeDir {dirs : List String} {d x : String}
    (h : x ∈ removeDir dirs d) : x ∈ dirs := by
  unfold removeDir at h
  by_cases hc : dirs.contains d = true
  · rw [if_pos hc] at h
    exact (List.mem_filter.mp h).1
  · rwa [if_neg hc] at h

theorem not_mem_removeDir (dirs : List String) (d : String) : d ∉ removeDir dirs d := by
  intro h
  unfold removeDir at h
  by_cases hc : dirs.contains d = true
  · rw [if_pos hc] at h
    have := (List.mem_filter.mp h).2
    simp at this
  · rw [if_neg hc] at h
    exact hc (List.elem_iff.mpr h)

theorem mem_of_mem_tryDel {cols : List String} {n x : String}
    (h : x ∈ tryDelCollection cols n) : x ∈ cols := by
  unfold tryDelCollection delCollectionExc at h
  by_cases hc : cols.contains n = true
  · rw [if_pos hc] at h
    exact (List.mem_filter.mp h).1
  · rwa [if_neg hc] at h

theorem not_mem_tryDel (cols : List String) (n : String) : n ∉ tryDelCollection cols n := by
  intro h
  unfold tryDelCollection delCollectionExc at h
  by_cases hc : cols.contains n = true
  · rw [if_pos hc] at h
    have := (List.mem_filter.mp h).2
    simp at this
  · rw [if_neg hc] at h
    exact hc (List.elem_iff.mpr h)

theorem tryDel_noop {cols : List String} {n : String} (h : n ∉ cols) :
    tryDelCollection cols n = cols := by
  unfold tryDelCollection delCollectionExc
  rw [if_neg (fun hc => h (List.elem_iff.mp hc))]

theorem routerCleanup_clears (uid : String) (st : SysState) :
    uploadsDir uid ∉ (routerCleanup uid st).dirs
    ∧ tempDir uid ∉ (routerCleanup uid st).dirs
    ∧ uploadedTextName uid ∉ (routerCleanup uid st).cols
    ∧ uploadedImageName uid ∉ (routerCleanup uid st).cols := by
  unfold routerCleanup
  refine ⟨?_, ?_, ?_, ?_⟩
  · intro h
    exact not_mem_removeDir _ _ (mem_of_mem_removeDir h)
  · exact not_mem_removeDir _ _
  · intro h
    exact not_mem_tryDel _ _ (mem_of_mem_tryDel h)
  · exact not_mem_tryDel _ _

/-! ## Claim theorems

The rational-arithmetic primitives of Batteries are marked `irreducible`,
which blocks `decide` on closed facts about the embedded thresholds; they are
re-marked `semireducible` locally so concrete runs evaluate. -/

section RatReducible
set_option allowUnsafeReducibility true
attribute [local semireducible] Rat.mul Rat.add Rat.sub Rat.inv

/-- Claim C3: for every query and consulted collection, the Retriever keeps
exactly those hits of the store's top-k answer whose distance is ≤ 0.7 (= the
`SIMILARITY_THRESHOLD`); hits beyond the threshold are discarded, and when no
hit is within the threshold the result list is empty rather than any fallback. -/
theorem C3_threshold_filter (docs : List String) (metas : List Meta) (dists : List ℚ) :
    retrSearch docs metas dists
      = (mkHits docs metas dists).filter (fun h => decide (h.distance ≤ SIMILARITY_THRESHOLD))
    ∧ (∀ h ∈ retrSearch docs metas dists, h.distance ≤ SIMILARITY_THRESHOLD)
    ∧ ((∀ d ∈ dists, SIMILARITY_THRESHOLD < d) → retrSearch docs metas dists = []) := by
  have heq : retrSearch docs metas dists
      = (mkHits docs metas dists).filter
          (fun h => decide (h.distance ≤ SIMILARITY_THRESHOLD)) := by
    unfold retrSearch mkHits
    exact retrSearch_loop_eq_filter _
  refine ⟨heq, ?_, ?_⟩
  · intro h hm
    rw [heq] at hm
    have := (List.mem_filter.mp hm).2
    exact of_decide_eq_true this
  · intro hall
    rw [heq]
    apply List.filter_eq_nil_iff.mpr
    intro h hm
    have hd := mem_mkHits_dist hm
    have := hall _ hd
    simp only [decide_eq_true_eq]
    exact not_le.mpr this

/-- Claim C3 witness: a concrete store answer whose only hit is beyond the
threshold yields the empty result. -/
theorem C3_threshold_filter_witness :
    retrSearch ["a"] [{}] [9 / 10] = [] := by
  refine (C3_threshold_filter ["a"] [{}] [9 / 10]).2.2 ?_
  intro d hd
  simp only [List.mem_singleton] at hd
  subst hd
  norm_num [SIMILARITY_THRESHOLD]

theorem decimal_has_digit : ∀ (l : Str),
    claimProtectedLine.containsDecimalNum l = true → ∃ x ∈ l, x.isDigit = true := by
  intro l
  induction l with
  | nil => intro h; simp [claimProtectedLine.containsDecimalNum] at h
  | cons a rest ih =>
    intro h
    cases rest with
    | nil => simp [claimProtectedLine.containsDecimalNum] at h
    | cons b rest2 =>
      cases rest2 with
      | nil => simp [claimProtectedLine.containsDecimalNum] at h
      | cons c rest3 =>
        rw [claimProtectedLine.containsDecimalNum] at h
        rcases Bool.or_eq_true_iff.mp h with h1 | h2
        · exact ⟨a, by simp, (Bool.and_eq_true_iff.mp (Bool.and_eq_true_iff.mp h1).1).1⟩
        · obtain ⟨x, hxm, hxd⟩ := ih h2
          exact ⟨x, by simp [hxm], hxd⟩

theorem decimal_imp_digit (l : Str)
    (h : claimProtectedLine.containsDecimalNum l = true) : hasAnyDigit l = true := by
  simpa [hasAnyDigit, List.any_eq_true] using decimal_has_digit l h

theorem ends_imp_contains {l : Str} (h : endsWithChar '.' l = true) :
    l.contains '.' = true := by
  unfold endsWithChar at h
  cases hl : l.getLast? with
  | none => rw [hl] at h; simp at h
  | some d =>
    rw [hl] at h
    have hd : d = '.' := by
      have := of_decide_eq_true (by exact h)
      exact this
    have hmem : '.' ∈ l := hd ▸ List.mem_of_getLast?_eq_some hl
    exact List.elem_iff.mpr hmem

theorem claimProtected_imp_shouldKeep (line : Str)
    (h : claimProtectedLine line = true) : shouldKeepLine line = true := by
  unfold claimProtectedLine at h
  unfold shouldKeepLine
  simp only [Bool.or_eq_true] at h ⊢
  rcases h with ((((h1 | h2) | h3) | h4) | h5)
  · exact Or.inl (Or.inl (Or.inl (Or.inl (decimal_imp_digit _ h1))))
  · exact Or.inl (Or.inl (Or.inr h2))
  · exact Or.inl (Or.inl (Or.inl (Or.inr h3)))
  · rcases Bool.and_eq_true_iff.mp h4 with ⟨h4a, h4b⟩
    exact Or.inl (Or.inr (Bool.and_eq_true_iff.mpr ⟨ends_imp_contains h4a, h4b⟩))
  · exact Or.inr h5

theorem mem_globallyFrequent_not_kept {p : CleanParams} {pages : List Str} {l : Str}
    (hm : l ∈ (analyzeDocument p pages).globallyFrequent) : shouldKeepLine l = false := by
  unfold analyzeDocument at hm
  by_cases h0 : pages.length = 0
  · rw [if_pos h0] at hm
    simp at hm
  · rw [if_neg h0] at hm
    simp only [List.mem_map, List.mem_filter] at hm
    obtain ⟨kv, ⟨_, hpred⟩, hfst⟩ := hm
    have h2 : (!shouldKeepLine kv.1) = true := (Bool.and_eq_true_iff.mp hpred).2
    rw [hfst] at h2
    simpa using h2

/-- Claim C6: a line containing a decimal number, a 4-digit year, a month name,
a sentence-ending period (not an ellipsis), or one of the quantity words is
never added to the globally-frequent removal set, no matter how often it
repeats — so global-frequent cleaning never removes it. -/
theorem C6_protected_line_never_global (p : CleanParams) (pages : List Str) (l : Str)
    (h : claimProtectedLine l = true) :
    l ∉ (analyzeDocument p pages).globallyFrequent := by
  intro hm
  have h1 := mem_globallyFrequent_not_kept hm
  rw [claimProtected_imp_shouldKeep l h] at h1
  simp at h1

/-- Claim C6 witness: `"Total assets."` is protected and absent from the
globally-frequent set of a document that repeats it on every page. -/
theorem C6_protected_line_never_global_witness :
    claimProtectedLine "Total assets.".toList = true
    ∧ "Total assets.".toList ∉ (analyzeDocument {} docProtected).globallyFrequent := by
  exact ⟨by decide,
    C6_protected_line_never_global {} docProtected "Total assets.".toList (by decide)⟩

/-- Claim C7: the `chunk_index` values of the chunks emitted for a document
form the dense zero-based sequence `0, 1, ..., n-1` in output order, for every
split-piece list — including pieces discarded as under 15 stripped characters
or skipped because their text cannot be located (such skips never abort the
walk, which is a total function of the remaining pieces). -/
theorem C7_dense_chunk_index (ft : Str) (pm : List Nat) (n : String) (ps : List Str) :
    (assignGo ft pm n ps 0 0).map (fun c => c.metadata.chunk_index)
      = List.range (assignGo ft pm n ps 0 0).length := by
  rw [List.range_eq_range']
  exact assignGo_indices ft pm n ps 0 0

/-- Claim C10: a cleaned document whose every page is empty or whitespace-only
makes `chunk_document` raise `ValueError("No content found to chunk.")` before
producing any chunk output. -/
theorem C10_blank_document_error (splitter : Str → List Str) (name : String)
    (pages : List PageIn) (h : ∀ p ∈ pages, trim p.text = []) :
    chunkDocument splitter name pages = .error "No content found to chunk." := by
  unfold chunkDocument
  rw [buildFull_blank h]
  rfl

/-- Claim C10 witness: a one-page whitespace-only document. -/
theorem C10_blank_document_error_witness :
    chunkDocument (fun _ => []) "d" [⟨1, "  \n ".toList⟩]
      = .error "No content found to chunk." := by
  exact C10_blank_document_error (fun _ => []) "d" [⟨1, "  \n ".toList⟩] (by decide)

/-- Claim C5 counterexample: the claim reads detection as "at least
`header_threshold` fraction of pages", but the code compares the count against
the truncated `int(total_pages * header_threshold)`. In `doc7` the line `HDR`
heads 2 of 7 pages: `2/7 < 0.3`, yet `2 ≥ int(7 * 0.3) = 2`, so it is detected. -/
theorem C5_counterexample :
    "HDR".toList ∈ (analyzeDocument {} doc7).headers
    ∧ ¬ specHeaderDetected {} doc7 "HDR".toList := by
  constructor
  · decide
  · unfold specHeaderDetected
    decide

/-- Claim C5 (amended): a line is detected as a header iff it occurs at least
once among the header candidates (first three non-blank lines per page,
counted with multiplicity) and its count is at least the truncated threshold
`int(total_pages * header_threshold)`; analogously for footers; a line is
globally frequent iff additionally the protection rule does not keep it. -/
theorem C5_detection_truncated_threshold (p : CleanParams) (pages : List Str) (l : Str) :
    (l ∈ (analyzeDocument p pages).headers ↔
      1 ≤ headerCandCount pages l
      ∧ pyInt ((pages.length : ℚ) * p.headerThreshold) ≤ (headerCandCount pages l : ℤ))
    ∧ (l ∈ (analyzeDocument p pages).footers ↔
      1 ≤ footerCandCount pages l
      ∧ pyInt ((pages.length : ℚ) * p.footerThreshold) ≤ (footerCandCount pages l : ℤ))
    ∧ (l ∈ (analyzeDocument p pages).globallyFrequent ↔
      1 ≤ globalCandCount p pages l
      ∧ pyInt ((pages.length : ℚ) * p.globalThreshold) ≤ (globalCandCount p pages l : ℤ)
      ∧ shouldKeepLine l = false) := by
  by_cases h0 : pages.length = 0
  · have hp : pages = [] := List.length_eq_zero.mp h0
    subst hp
    simp [analyzeDocument, headerCandCount, footerCandCount, globalCandCount]
  · unfold analyzeDocument
    rw [if_neg h0]
    have hwf := CWF_foldl_pageStep p pages ([], [], []) ⟨CWF_nil, CWF_nil, CWF_nil⟩
    have hc := foldl_pageStep_counts p l pages ([], [], [])
    simp only [countOf, Nat.zero_add] at hc
    refine ⟨?_, ?_, ?_⟩
    · unfold keysWithAtLeast
      rw [mem_filterKeys hwf.1, hc.1]
      simp
    · unfold keysWithAtLeast
      rw [mem_filterKeys hwf.2.1, hc.2.1]
      simp
    · rw [mem_filterKeys hwf.2.2, hc.2.2]
      simp [Bool.and_eq_true_iff, and_assoc]

/-- Claim C5 witness: in `doc7`, `HDR` is detected through the truncated
threshold characterization. -/
theorem C5_detection_truncated_threshold_witness :
    "HDR".toList ∈ (analyzeDocument {} doc7).headers := by
  refine ((C5_detection_truncated_threshold {} doc7 "HDR".toList).1).mpr ?_
  decide

/-- The code-side coerced mode as a function of the parsed classification and
the upload context. -/
theorem retrieveStageMode_eq (classified : Option String) (q : String)
    (uid : Option String) :
    retrieveStageMode classified q uid =
      (if (legalModes uid).contains (classified.getD "regulatory_only")
       then classified.getD "regulatory_only" else "regulatory_only") := by
  unfold retrieveStageMode intentRun legalModes
  by_cases hw : (classified.getD "regulatory_only") == "web" <;>
    by_cases hu : optTruthy uid <;>
      simp [hw, hu]

/-- Claim C1 counterexample: with no upload attached, a classified `web` mode
is inside the allowed set `["regulatory_only", "web"]`, so the Retrieve stage
receives mode `web` — the claim says the retrieval mode is never `web`. -/
theorem C1_counterexample :
    retrieveStageMode (some "web") "Any question" none = "web" := by decide

/-- Claim C1 (amended): the mode reaching the Retrieve stage always lies in
the legal set for the upload context — `{regulatory_only, web}` without an
upload id (so `web` can reach retrieval), `{regulatory_only, uploaded_only,
compare}` with one; without a session id it is never `uploaded_only` or
`compare`, with one it is never `web`; a parse failure or a classified mode
outside the legal set is coerced to `regulatory_only`. -/
theorem C1_mode_legality (classified : Option String) (q : String) (uid : Option String) :
    retrieveStageMode classified q uid ∈ legalModes uid
    ∧ (optTruthy uid = false →
        retrieveStageMode classified q uid ≠ "uploaded_only"
        ∧ retrieveStageMode classified q uid ≠ "compare")
    ∧ (optTruthy uid = true → retrieveStageMode classified q uid ≠ "web")
    ∧ (classified = none → retrieveStageMode classified q uid = "regulatory_only")
    ∧ (∀ c, classified = some c → c ∉ legalModes uid →
        retrieveStageMode classified q uid = "regulatory_only") := by
  rw [retrieveStageMode_eq]
  by_cases hc : (legalModes uid).contains (classified.getD "regulatory_only")
  · rw [if_pos hc]
    have hmem := List.elem_iff.mp hc
    refine ⟨hmem, ?_, ?_, ?_, ?_⟩
    · intro hu
      unfold legalModes at hmem
      rw [hu] at hmem
      simp only [Bool.false_eq_true, if_false, List.mem_cons, List.mem_singleton,
        List.not_mem_nil, or_false] at hmem
      rcases hmem with h | h <;> simp [h]
    · intro hu
      unfold legalModes at hmem
      rw [hu] at hmem
      simp only [if_true, List.mem_cons, List.mem_singleton, List.not_mem_nil,
        or_false] at hmem
      rcases hmem with h | h | h <;> simp [h]
    · intro hn
      rw [hn]
      rfl
    · intro c hcl habs
      rw [hcl] at hc
      exact absurd (List.elem_iff.mp hc) habs
  · rw [if_neg hc]
    refine ⟨?_, fun _ => ⟨by decide, by decide⟩, fun _ => by decide, fun _ => rfl,
      fun _ _ _ => rfl⟩
    unfold legalModes
    by_cases hu : optTruthy uid <;> simp [hu]

/-- Claim C1 witness: a classified `uploaded_only` with no session id, and a
classified `web` with a session id, are both coerced away. -/
theorem C1_mode_legality_witness :
    retrieveStageMode (some "uploaded_only") "q" none ≠ "uploaded_only"
    ∧ retrieveStageMode (some "web") "q" (some "s1") ≠ "web" :=
  ⟨((C1_mode_legality (some "uploaded_only") "q" none).2.1 (by decide)).1,
    (C1_mode_legality (some "web") "q" (some "s1")).2.2.1 (by decide)⟩

theorem querySearch_web (st : VStore) (uid : String) :
    querySearch st "web" uid = ⟨[], [], [], []⟩ := by
  unfold querySearch loadedText loadedImage
  simp [show (("web" : String) == "regulatory_only") = false from rfl,
        show (("web" : String) == "compare") = false from rfl,
        show (("web" : String) == "uploaded_only") = false from rfl]

theorem retrievalRun_web {st : VStore} {s : QState} (h : s.mode = some "web") :
    retrievalRun st s = .ok { s with
      uploadedText := [], regulatoryText := [], uploadedImages := [], regulatoryImages := [],
      needWeb := true,
      progress := (s.progress ++ ["🔎 Searching knowledge base..."])
        ++ ["⚠️  Nothing in KB — trying web search..."] } := by
  unfold retrievalRun
  rw [h]
  simp [querySearch_web,
        show (("web" : String) == "uploaded_only") = false from rfl,
        show (("web" : String) == "compare") = false from rfl]

theorem intentRun_web_noupload (q : String) {uid : Option String}
    (h : optTruthy uid = false) :
    intentRun (some "web") { query := q, uploadId := uid } =
      { query := q, uploadId := uid, mode := some "web", needWeb := true,
        progress := ["🧭 Determining query intent..."] } := by
  simp [intentRun, h]

theorem intentRun_web_upload (q : String) {uid : Option String}
    (h : optTruthy uid = true) :
    intentRun (some "web") { query := q, uploadId := uid } =
      { query := q, uploadId := uid, mode := some "regulatory_only", needWeb := true,
        progress := ["🧭 Determining query intent..."] } := by
  simp [intentRun, h]

/-- Claim C2 counterexample: with an upload attached and a classified `web`
mode, a nonzero retrieval hit count clears `need_web`, so the Web stage is
skipped entirely — no web progress entry and no web results, although the web
collaborator had a result to return. -/
theorem C2_counterexample :
    exIsOk (runQuery (some "web") stC2 (.ok [rawW]) llmK "q" (some "s1")) = true
    ∧ (okState (runQuery (some "web") stC2 (.ok [rawW]) llmK "q" (some "s1"))).webResults = []
    ∧ "🌐 Searching web as fallback..." ∉
        (okState (runQuery (some "web") stC2 (.ok [rawW]) llmK "q" (some "s1"))).progress := by
  exact ⟨by decide, by decide, by decide⟩

/-- Claim C2 (amended): a classified `web` intent sets the web signal, and when
no upload is present the mode stays `web`, so retrieval consults no collection
at all (zero hits for every store — not `regulatory_only` behavior), `need_web`
stays set and the Web stage runs. When an upload is present the mode is coerced
to `regulatory_only`, and a nonzero retrieval hit count overwrites `need_web`
to false, cancelling the explicit web signal (Retrieve routes to Final). -/
theorem C2_web_intent_behavior (q : String) (uid : Option String) (st : VStore) :
    (optTruthy uid = false →
      exIsOk (runToStage2 (some "web") st q uid) = true
      ∧ (okState (runToStage2 (some "web") st q uid)).mode = some "web"
      ∧ totalHits (okState (runToStage2 (some "web") st q uid)) = 0
      ∧ (okState (runToStage2 (some "web") st q uid)).needWeb = true
      ∧ routeAfterRetrieval (okState (runToStage2 (some "web") st q uid)) = "web")
    ∧ (optTruthy uid = true →
      exIsOk (runToStage2 (some "web") st q uid) = true
      ∧ (okState (runToStage2 (some "web") st q uid)).mode = some "regulatory_only"
      ∧ (totalHits (okState (runToStage2 (some "web") st q uid)) ≠ 0 →
          routeAfterRetrieval (okState (runToStage2 (some "web") st q uid)) = "final")) := by
  constructor
  · intro hu
    unfold runToStage2
    rw [intentRun_web_noupload q hu, retrievalRun_web rfl]
    exact ⟨rfl, rfl, rfl, rfl, rfl⟩
  · intro hu
    unfold runToStage2
    rw [intentRun_web_upload q hu]
    unfold retrievalRun
    simp only [Option.getD_some,
      show (("regulatory_only" : String) == "uploaded_only") = false from rfl,
      show (("regulatory_only" : String) == "compare") = false from rfl,
      Bool.or_self, Bool.false_and, Bool.false_or]
    rw [if_neg (by simp)]
    split
    · next htz =>
      refine ⟨rfl, rfl, ?_⟩
      intro hnz
      exfalso
      apply hnz
      simp only [okState, totalHits]
      simpa using htz
    · exact ⟨rfl, rfl, fun _ => rfl⟩

/-- Claim C2 witness: without an upload the route after Retrieve is `web`;
with an upload and a store that returns a close regulatory hit it is `final`. -/
theorem C2_web_intent_behavior_witness :
    routeAfterRetrieval (okState (runToStage2 (some "web") stEmpty "q" none)) = "web"
    ∧ routeAfterRetrieval (okState (runToStage2 (some "web") stC2 "q" (some "s1")))
        = "final" := by
  refine ⟨((C2_web_intent_behavior "q" none stEmpty).1 (by decide)).2.2.2.2, ?_⟩
  exact ((C2_web_intent_behavior "q" (some "s1") stC2).2 (by decide)).2.2 (by decide)

/-- Claim C9: a web collaborator failure does not abort the query — the stage
records the failure reason, leaves `web_results` empty, and the Final stage
still runs and produces an answer. -/
theorem C9_web_failure_nonfatal (classified : Option String) (st : VStore) (q : String)
    (uid : Option String) (llm : String → String) (e : String)
    (hok : exIsOk (runToStage2 classified st q uid) = true)
    (hweb : (okState (runToStage2 classified st q uid)).needWeb = true) :
    exIsOk (runQuery classified st (.error e) llm q uid) = true
    ∧ (okState (runQuery classified st (.error e) llm q uid)).webResults = []
    ∧ ("🌐 Web search failed: " ++ e) ∈
        (okState (runQuery classified st (.error e) llm q uid)).progress
    ∧ "✅ Answer ready." ∈ (okState (runQuery classified st (.error e) llm q uid)).progress
    ∧ (okState (runQuery classified st (.error e) llm q uid)).answer.isSome = true := by
  obtain ⟨s2, hs2⟩ : ∃ s2, runToStage2 classified st q uid = .ok s2 := by
    cases hr : runToStage2 classified st q uid with
    | ok s => exact ⟨s, rfl⟩
    | error err => rw [hr] at hok; simp [exIsOk] at hok
  rw [hs2] at hweb
  simp only [okState] at hweb
  unfold runQuery
  rw [hs2]
  simp only [routeAfterRetrieval, hweb, if_true, reduceIte]
  unfold webRun
  rw [hweb]
  simp only [Bool.not_true, Bool.false_eq_true, if_false]
  unfold finalRun
  simp [okState, exIsOk, List.mem_append]

/-- Claim C9 witness: an empty store forces the web fallback; a failing
collaborator still yields an answered query with empty web results. -/
theorem C9_web_failure_nonfatal_witness :
    exIsOk (runQuery none stEmpty (.error "boom") llmK "q" none) = true
    ∧ (okState (runQuery none stEmpty (.error "boom") llmK "q" none)).webResults = []
    ∧ ("🌐 Web search failed: " ++ "boom") ∈
        (okState (runQuery none stEmpty (.error "boom") llmK "q" none)).progress
    ∧ "✅ Answer ready." ∈ (okState (runQuery none stEmpty (.error "boom") llmK "q" none)).progress
    ∧ (okState (runQuery none stEmpty (.error "boom") llmK "q" none)).answer.isSome = true :=
  C9_web_failure_nonfatal none stEmpty "q" none llmK "boom" (by decide) (by decide)

/-- Claim C8 (code bug): `FinalAgent.run` reads `i.get("image_path")` on the
top level of each image hit, but the retriever stores the image path inside the
hit's `metadata`, so the returned `images` list is empty even when an included
image hit carries a path — here a concrete regulatory image hit with a path
yields `images = []` where the claim requires the path to appear. -/
theorem C8_images_lost :
    imgHitC8.metadata.image_path = some "temp/u1/extracted/charts/page1.png"
    ∧ stateC8.regulatoryImages = [imgHitC8]
    ∧ (finalRun llmK stateC8).images = [] := by
  exact ⟨by decide, by decide, by decide⟩

/-- Claim C4: for every `handle_input` invocation that runs a query against an
uploaded session — files plus query (Pattern A), or query plus upload id
(Pattern B step 2) — `_cleanup` runs exactly once whatever the ingestion and
query outcomes are, the final system state holds neither the session's upload
and temp directories nor its two uploaded collections, and deleting a
collection that never existed is a no-op rather than an error. -/
theorem C4_cleanup_exactly_once
    (ingest : String → SysState → SysState × Except String Unit)
    (invoke : Except String Unit) (query : Option String)
    (files : Option (List String)) (uploadId0 : Option String) (genId : String)
    (st : SysState)
    (h : (optFilesTruthy files = true ∧ optTruthy query = true)
       ∨ (optFilesTruthy files = false ∧ optTruthy query = true ∧ optTruthy uploadId0 = true)) :
    (handleInput ingest invoke query files uploadId0 genId st).cleanups = 1
    ∧ uploadsDir (sessionIdOf files uploadId0 genId)
        ∉ (handleInput ingest invoke query files uploadId0 genId st).sys.dirs
    ∧ tempDir (sessionIdOf files uploadId0 genId)
        ∉ (handleInput ingest invoke query files uploadId0 genId st).sys.dirs
    ∧ uploadedTextName (sessionIdOf files uploadId0 genId)
        ∉ (handleInput ingest invoke query files uploadId0 genId st).sys.cols
    ∧ uploadedImageName (sessionIdOf files uploadId0 genId)
        ∉ (handleInput ingest invoke query files uploadId0 genId st).sys.cols
    ∧ (∀ (cols : List String) (n : String), n ∉ cols → tryDelCollection cols n = cols) := by
  rcases h with ⟨hf, hq⟩ | ⟨hf, hq, hu⟩
  · have hUid : ((if true && !optTruthy uploadId0 then some genId
        else uploadId0).getD "") = sessionIdOf files uploadId0 genId := by
      unfold sessionIdOf
      rw [hf]
      by_cases hu0 : optTruthy uploadId0 <;> simp [hu0]
    have hres : (handleInput ingest invoke query files uploadId0 genId st).cleanups = 1
        ∧ (handleInput ingest invoke query files uploadId0 genId st).sys
            = routerCleanup (sessionIdOf files uploadId0 genId)
                (ingest (sessionIdOf files uploadId0 genId)
                  (saveFiles (sessionIdOf files uploadId0 genId) st)).1 := by
      unfold handleInput
      simp only [hf, hq, if_true]
      rw [hUid]
      exact ⟨trivial, rfl⟩
    refine ⟨hres.1, ?_, ?_, ?_, ?_, fun cols n hn => tryDel_noop hn⟩
    · rw [hres.2]
      exact (routerCleanup_clears _ _).1
    · rw [hres.2]
      exact (routerCleanup_clears _ _).2.1
    · rw [hres.2]
      exact (routerCleanup_clears _ _).2.2.1
    · rw [hres.2]
      exact (routerCleanup_clears _ _).2.2.2
  · have hsid : sessionIdOf files uploadId0 genId = uploadId0.getD "" := by
      unfold sessionIdOf
      simp [hf]
    have hres : (handleInput ingest invoke query files uploadId0 genId st).cleanups = 1
        ∧ (handleInput ingest invoke query files uploadId0 genId st).sys
            = routerCleanup (uploadId0.getD "") st := by
      unfold handleInput
      simp only [hf, hq, hu, Bool.false_and, Bool.false_eq_true, if_false, Bool.and_self,
        if_true]
      exact ⟨trivial, trivial⟩
    refine ⟨hres.1, ?_, ?_, ?_, ?_, fun cols n hn => tryDel_noop hn⟩
    · rw [hsid, hres.2]
      exact (routerCleanup_clears _ _).1
    · rw [hsid, hres.2]
      exact (routerCleanup_clears _ _).2.1
    · rw [hsid, hres.2]
      exact (routerCleanup_clears _ _).2.2.1
    · rw [hsid, hres.2]
      exact (routerCleanup_clears _ _).2.2.2

/-- Claim C4 witness: a files-plus-query invocation whose ingestion and graph
invocation both raise still cleans up exactly once and leaves no session
directories or collections. -/
theorem C4_cleanup_exactly_once_witness :
    (handleInput ingC invC (some "q") (some ["doc.pdf"]) none "s1" sysC4).cleanups = 1
    ∧ uploadsDir (sessionIdOf (some ["doc.pdf"]) none "s1")
        ∉ (handleInput ingC invC (some "q") (some ["doc.pdf"]) none "s1" sysC4).sys.dirs
    ∧ tempDir (sessionIdOf (some ["doc.pdf"]) none "s1")
        ∉ (handleInput ingC invC (some "q") (some ["doc.pdf"]) none "s1" sysC4).sys.dirs
    ∧ uploadedTextName (sessionIdOf (some ["doc.pdf"]) none "s1")
        ∉ (handleInput ingC invC (some "q") (some ["doc.pdf"]) none "s1" sysC4).sys.cols
    ∧ uploadedImageName (sessionIdOf (some ["doc.pdf"]) none "s1")
        ∉ (handleInput ingC invC (some "q") (some ["doc.pdf"]) none "s1" sysC4).sys.cols
    ∧ (∀ (cols : List String) (n : String), n ∉ cols → tryDelCollection cols n = cols) :=
  C4_cleanup_exactly_once ingC invC (some "q") (some ["doc.pdf"]) none "s1" sysC4
    (Or.inl ⟨by decide, by decide⟩)

end RatReducible

end FinReg
